import Mathlib

/-!
Shallow embedding of the Jamla bot core (SubscriptionStore, Router/Watcher,
DigestScheduler, NotificationSender) from `src/bot/database.py`,
`src/bot/channel_watcher.py`, `src/bot/digest.py` and `src/bot/config.py`,
together with proofs of the specified properties.
-/

set_option maxHeartbeats 1000000

namespace Jamla

/-! ### Localised messages (`config.get_message`) -/

/-- `MESSAGES[lang]["digest_header"]`, with the `uz` fallback of `get_message`. -/
def digest_header (lang : String) : String :=
  if lang = "ru" then "📰 <b>Сводка за 24 часа</b>\n\n"
  else "📰 <b>Oxirgi 24 soat xulosasi</b>\n\n"

/-- `MESSAGES[lang]["no_posts"]`, with the `uz` fallback of `get_message`. -/
def no_posts_msg (lang : String) : String :=
  if lang = "ru" then "📭 За последние 24 часа новых постов нет."
  else "📭 Oxirgi 24 soatda yangi postlar yo'q."

/-! ### String helpers used by the source

`channel_username.lower()` and `username.lstrip("@")` from Python. -/

/-- Python `str.lower()` (ASCII case folding; channel handles are `\w+`). -/
def pyLower (s : String) : String := ⟨s.data.map Char.toLower⟩

/-- Python `str.lstrip("@")`: drop every leading `'@'`. -/
def lstripAt (s : String) : String := ⟨s.data.dropWhile (· = '@')⟩

/-! ### SubscriptionStore (`src/bot/database.py`)

Rows of the four tables, and the `Database` methods as pure functions on a
`DB` value.  SQLite's `UNIQUE` constraints become explicit membership
checks; an `IntegrityError` caught by the source becomes the corresponding
`none`/`false` result. -/

/-- A row of the `users` table. -/
structure UserR where
  user_id : Nat
  mode : String
  digest_time : String
  language : String
  deriving DecidableEq

/-- A row of the `channels` table (`channel_id` is the external
platform-assigned id, `id` the internal `AUTOINCREMENT` key). -/
structure ChannelR where
  id : Nat
  channel_username : String
  channel_id : Int
  title : String
  deriving DecidableEq

/-- A row of the `posts` table. -/
structure PostR where
  id : Nat
  channel_id : Nat
  message_id : Nat
  text : String
  created_at : Int
  sent : Bool
  deriving DecidableEq

/-- The whole store.  `next_channel_id` / `next_post_id` model the
`AUTOINCREMENT` counters. -/
structure DB where
  users : List UserR
  channels : List ChannelR
  user_channels : List (Nat × Nat)
  posts : List PostR
  next_channel_id : Nat
  next_post_id : Nat
  deriving DecidableEq

/-- `Database.get_or_create_user` (defaults: mode `realtime`, digest time
`09:00`, language `uz`). -/
def get_or_create_user (db : DB) (uid : Nat) : UserR × DB :=
  match db.users.find? (fun u => decide (u.user_id = uid)) with
  | some u => (u, db)
  | none =>
    let u : UserR := ⟨uid, "realtime", "09:00", "uz"⟩
    (u, { db with users := db.users ++ [u] })

/-- `Database.get_users_for_digest`: users with mode `digest` whose digest
time equals the current `"HH:MM"` string. -/
def get_users_for_digest (db : DB) (current_time : String) : List UserR :=
  db.users.filter fun u => decide (u.mode = "digest" ∧ u.digest_time = current_time)

/-- `Database.get_channel_by_username`: lookup by `channel_username.lower()`. -/
def get_channel_by_username (db : DB) (channel_username : String) : Option ChannelR :=
  db.channels.find? fun c => decide (c.channel_username = pyLower channel_username)

/-- `Database.get_channel_by_id`: lookup by the external platform id. -/
def get_channel_by_id (db : DB) (channel_id : Int) : Option ChannelR :=
  db.channels.find? fun c => decide (c.channel_id = channel_id)

/-- `Database.add_channel`: upsert by lowercased username; refreshes
external id and title when the row exists, inserts otherwise.  Returns the
internal channel id. -/
def add_channel (db : DB) (channel_username : String) (channel_id : Int)
    (title : String) : Nat × DB :=
  match db.channels.find? (fun c => decide (c.channel_username = pyLower channel_username)) with
  | some row =>
    (row.id, { db with channels := db.channels.map fun d =>
      if d.id = row.id then { d with channel_id := channel_id, title := title } else d })
  | none =>
    let cid := db.next_channel_id
    (cid, { db with
      channels := db.channels ++ [⟨cid, pyLower channel_username, channel_id, title⟩],
      next_channel_id := cid + 1 })

/-- `Database.add_user_channel`: `INSERT` guarded by the
`(user_id, channel_id)` primary key; returns `false` on the caught
`IntegrityError`. -/
def add_user_channel (db : DB) (uid cid : Nat) : Bool × DB :=
  if (uid, cid) ∈ db.user_channels then (false, db)
  else (true, { db with user_channels := db.user_channels ++ [(uid, cid)] })

/-- `Database.remove_user_channel`: `DELETE` of the pair; returns whether a
row was removed (`rowcount > 0`). -/
def remove_user_channel (db : DB) (uid cid : Nat) : Bool × DB :=
  (decide ((uid, cid) ∈ db.user_channels),
   { db with user_channels := db.user_channels.filter fun pr => decide (¬(pr.1 = uid ∧ pr.2 = cid)) })

/-- `Database.get_channel_users`: join of `users` with `user_channels` on
the given internal channel id. -/
def get_channel_users (db : DB) (cid : Nat) : List UserR :=
  db.users.filter fun u => decide ((u.user_id, cid) ∈ db.user_channels)

/-- `Database.user_has_channel`. -/
def user_has_channel (db : DB) (uid cid : Nat) : Bool :=
  decide ((uid, cid) ∈ db.user_channels)

/-- `Database.add_post`: `INSERT` guarded by `UNIQUE(channel_id,
message_id)`; duplicate insert is the caught `IntegrityError`, reported as
`none`.  Stored text is `text[:500]`. -/
def add_post (db : DB) (cid mid : Nat) (text : String) (now : Int) : Option Nat × DB :=
  if db.posts.any (fun p => decide (p.channel_id = cid ∧ p.message_id = mid)) then
    (none, db)
  else
    let pid := db.next_post_id
    (some pid, { db with
      posts := db.posts ++ [⟨pid, cid, mid, text.take 500, now, false⟩],
      next_post_id := pid + 1 })

/-- `Database.mark_posts_sent`: bulk `UPDATE posts SET sent = 1` over the
given ids; no-op on empty input. -/
def mark_posts_sent (db : DB) (ids : List Nat) : DB :=
  if ids = [] then db
  else { db with posts := db.posts.map fun p =>
    if p.id ∈ ids then { p with sent := true } else p }

/-- The predicate `created_at < now - days*86400` used by
`Database.cleanup_old_posts` (timestamps in seconds). -/
def postExpired (now : Int) (days : Int) (p : PostR) : Prop :=
  p.created_at < now - days * 86400

instance (now days : Int) (p : PostR) : Decidable (postExpired now days p) := by
  unfold postExpired; infer_instance

/-- `Database.cleanup_old_posts`: `DELETE FROM posts WHERE created_at <
now - days`; returns the `rowcount`. -/
def cleanup_old_posts (db : DB) (now : Int) (days : Int) : Nat × DB :=
  ((db.posts.filter fun p => decide (postExpired now days p)).length,
   { db with posts := db.posts.filter fun p => decide (¬ postExpired now days p) })

/-! ### Digest rows

`Database.get_unsent_posts_for_user` returns rows `p.*, c.title as
channel_title, c.channel_username` — embedded as `DPost`. -/

/-- One row fetched by `get_unsent_posts_for_user` (post joined with its
owning channel). -/
structure DPost where
  id : Nat
  channel_id : Nat
  message_id : Nat
  text : String
  created_at : Int
  channel_title : String
  deriving DecidableEq, Repr

/-- Stable insertion of a row into a list sorted by `created_at`
descending (tie order among equal timestamps is unspecified by SQLite's
`ORDER BY`; a stable sort is one faithful realisation). -/
def insertDesc (p : DPost) : List DPost → List DPost
  | [] => [p]
  | q :: rest =>
    if q.created_at < p.created_at then p :: q :: rest
    else q :: insertDesc p rest

/-- Stable sort by `created_at DESC`. -/
def sortByCreatedDesc : List DPost → List DPost
  | [] => []
  | p :: rest => insertDesc p (sortByCreatedDesc rest)

/-- `Database.get_unsent_posts_for_user`: posts joined with their owning
channel and the user's subscriptions, restricted to the last 24 hours and
`sent = 0`, ordered `created_at DESC`. -/
def get_unsent_posts_for_user (db : DB) (uid : Nat) (now : Int) : List DPost :=
  let yesterday := now - 24 * 3600
  let rows := db.posts.filterMap fun p =>
    match db.channels.find? (fun c => decide (c.id = p.channel_id)) with
    | some c =>
      if (uid, c.id) ∈ db.user_channels ∧ yesterday < p.created_at ∧ p.sent = false then
        some ⟨p.id, p.channel_id, p.message_id, p.text, p.created_at, c.title⟩
      else none
    | none => none
  sortByCreatedDesc rows

/-! ### Digest composition (`DigestManager.send_digest_to_user`, lines 72–95)

The Python code groups the fetched posts into a dict keyed by
`post["channel_title"]` (insertion-ordered), then appends chunks to the
message string.  We embed the message as the `String.join` of the list of
appended chunks. -/

/-- One step of the grouping loop: append `p` to the group keyed by its
`channel_title`, creating the group at the end if the key is new
(Python dicts preserve insertion order). -/
def insertGroup (gs : List (String × List DPost)) (p : DPost) :
    List (String × List DPost) :=
  match gs with
  | [] => [(p.channel_title, [p])]
  | (t, ps) :: rest =>
    if t = p.channel_title then (t, ps ++ [p]) :: rest
    else (t, ps) :: insertGroup rest p

/-- `channels = {}` ; `for post in posts: channels[post["channel_title"]].append(post)`. -/
def groupPostsByTitle (posts : List DPost) : List (String × List DPost) :=
  posts.foldl insertGroup []

/-- `text[:100] + "..."` when `len(text) > 100`, else `text` unchanged. -/
def truncPost (text : String) : String :=
  if text.length > 100 then text.take 100 ++ "..." else text

/-- The bullet lines of one channel group: the first 5 posts, each rendered
as `"  • {text}\n"`, skipped when the (truncated) text is empty
(`if text:`). -/
def bulletChunksOf (ps : List DPost) : List String :=
  (ps.take 5).filterMap fun p =>
    let t := truncPost p.text
    if t = "" then none else some ("  • " ++ t ++ "\n")

/-- `"📢 <b>{title}</b> ({n} ta post)\n"`. -/
def groupHeader (title : String) (n : Nat) : String :=
  "📢 <b>" ++ title ++ "</b> (" ++ toString n ++ " ta post)\n"

/-- `"  <i>...va yana {n-5} ta</i>\n"` when the group has more than 5 posts. -/
def moreChunk (ps : List DPost) : List String :=
  if ps.length > 5 then
    ["  <i>...va yana " ++ toString (ps.length - 5) ++ " ta</i>\n"]
  else []

/-- All chunks appended to the message for one channel group. -/
def groupChunks (title : String) (ps : List DPost) : List String :=
  groupHeader title ps.length :: (bulletChunksOf ps ++ moreChunk ps ++ ["\n"])

/-- The chunks of the whole digest message: header then every group. -/
def digestChunks (lang : String) (posts : List DPost) : List String :=
  digest_header lang :: ((groupPostsByTitle posts).map
    fun g => groupChunks g.1 g.2).flatten

/-- The composed digest message (the value of `message` at line 98). -/
def buildDigestMessage (lang : String) (posts : List DPost) : String :=
  String.join (digestChunks lang posts)

/-! ### Delivery outcomes (the transport collaborator)

`bot.send_message` / `bot.forward_messages` either succeed, raise
`FloodWaitError(seconds)`, or raise some other exception. -/

/-- Outcome of one outbound send as observed by the caller. -/
inductive SendOutcome where
  | ok
  | floodWait (seconds : Nat)
  | failed
  deriving DecidableEq

/-! ### `DigestManager` (`src/bot/digest.py`) -/

/-- Observable result of `DigestManager.send_digest_to_user`: the messages
handed to `bot.send_message` for this user, the `asyncio.sleep` durations
performed by the `FloodWaitError` handler, and the store afterwards. -/
structure DigestSendResult where
  attempts : List String
  slept : List Nat
  db : DB
  deriving DecidableEq

/-- `DigestManager.send_digest_to_user`: fetch the unsent posts; return
silently when empty; otherwise build the digest, send it once, and — only
when the send raised nothing — mark every fetched post sent.  A
`FloodWaitError` is caught, slept out and NOT retried; any other exception
is caught and logged. -/
def send_digest_to_user (db : DB) (uid : Nat) (lang : String) (now : Int)
    (outcome : SendOutcome) : DigestSendResult :=
  let posts := get_unsent_posts_for_user db uid now
  if posts = [] then ⟨[], [], db⟩
  else
    let msg := buildDigestMessage lang posts
    match outcome with
    | .ok => ⟨[msg], [], mark_posts_sent db (posts.map DPost.id)⟩
    | .floodWait s => ⟨[msg], [s], db⟩
    | .failed => ⟨[msg], [], db⟩

/-- `DigestManager.send_manual_digest`: when the fetched set is empty,
send the `no_posts` notice and return `False`; otherwise delegate to
`send_digest_to_user` and return `True`. -/
def send_manual_digest (db : DB) (uid : Nat) (lang : String) (now : Int)
    (outcome : SendOutcome) : Bool × DigestSendResult :=
  let posts := get_unsent_posts_for_user db uid now
  if posts = [] then (false, ⟨[no_posts_msg lang], [], db⟩)
  else (true, send_digest_to_user db uid lang now outcome)

/-- The per-user loop of one scheduler tick (`digest.py` lines 44–47):
`for user in users: await self.send_digest_to_user(...)`.  Returns the
store after the loop and, per processed user, the messages attempted. -/
def tickUsers (outcomes : Nat → SendOutcome) (now : Int) :
    DB → List UserR → DB × List (Nat × List String)
  | db, [] => (db, [])
  | db, u :: rest =>
    let r := send_digest_to_user db u.user_id u.language now (outcomes u.user_id)
    let tail := tickUsers outcomes now r.db rest
    (tail.1, (u.user_id, r.attempts) :: tail.2)

/-- One `Tick` of `DigestManager._scheduler`: fetch the due users, deliver
each digest, and at `"00:00"` additionally purge posts older than 7 days. -/
def schedulerTick (db : DB) (current_time : String) (now : Int)
    (outcomes : Nat → SendOutcome) : DB × List (Nat × List String) × Option Nat :=
  let users := get_users_for_digest db current_time
  let loopDone := tickUsers outcomes now db users
  if current_time = "00:00" then
    let purge := cleanup_old_posts loopDone.1 now 7
    (purge.2, loopDone.2, some purge.1)
  else (loopDone.1, loopDone.2, none)

/-! ### `ChannelWatcher` (`src/bot/channel_watcher.py`) -/

/-- Watcher state: the store plus the in-memory set of external channel
ids currently watched (`self._watching_channels`). -/
structure WState where
  db : DB
  watching : List Int
  deriving DecidableEq

/-- `_add_channel_handler`: add the external id to the watch set if absent. -/
def watchAdd (w : List Int) (cid : Int) : List Int :=
  if cid ∈ w then w else w ++ [cid]

/-- `_remove_channel_handler`: `set.discard`. -/
def watchRemove (w : List Int) (cid : Int) : List Int :=
  w.filter fun x => decide (¬ x = cid)

/-- `ChannelWatcher.resolve_channel` with a transport that answers the
(`lstrip("@")`-stripped) username query with `some (externalId, title)` or
`none` (not found / private / not a channel / other error).  Returns the
dict `{"username", "channel_id", "title"}`. -/
def resolve_channel (transport : String → Option (Int × String))
    (username : String) : Option (String × Int × String) :=
  let u := lstripAt username
  (transport u).map fun et => (u, et.1, et.2)

/-- Observable result of `ChannelWatcher.add_channel_for_user`:
the `(success, message_key_or_title)` pair, whether external resolution
was reached, and the state afterwards. -/
structure AddResult where
  success : Bool
  message : String
  resolveAttempted : Bool
  st : WState
  deriving DecidableEq

/-- The resolve-and-insert tail of `add_channel_for_user` (lines 72–91),
entered whenever the early already-added check did not fire. -/
def addChannelResolvePath (transport : String → Option (Int × String))
    (st : WState) (uid : Nat) (channel_username : String) : AddResult :=
  match resolve_channel transport channel_username with
  | none => ⟨false, "channel_not_found", true, st⟩
  | some info =>
    let up := add_channel st.db info.1 info.2.1 info.2.2
    let ins := add_user_channel up.2 uid up.1
    if ins.1 then
      ⟨true, info.2.2, true, ⟨ins.2, watchAdd st.watching info.2.1⟩⟩
    else
      ⟨false, "channel_already_added", true, ⟨ins.2, st.watching⟩⟩

/-- `ChannelWatcher.add_channel_for_user`: create the user if absent, run
the early already-added check on the handle AS GIVEN (lowercased by the
store lookup, `'@'` not stripped), and otherwise resolve externally and
insert. -/
def add_channel_for_user (transport : String → Option (Int × String))
    (st : WState) (uid : Nat) (channel_username : String) : AddResult :=
  let (_, db0) := get_or_create_user st.db uid
  let st0 : WState := ⟨db0, st.watching⟩
  match get_channel_by_username st0.db channel_username with
  | some existing =>
    if user_has_channel st0.db uid existing.id then
      ⟨false, "channel_already_added", false, st0⟩
    else addChannelResolvePath transport st0 uid channel_username
  | none => addChannelResolvePath transport st0 uid channel_username

/-- `ChannelWatcher.remove_channel_for_user`: look the channel up by the
`'@'`-stripped handle, delete the subscription, and deactivate watching
when no subscriber remains. -/
def remove_channel_for_user (st : WState) (uid : Nat)
    (channel_username : String) : (Bool × String) × WState :=
  match get_channel_by_username st.db (lstripAt channel_username) with
  | none => ((false, "channel_not_in_list"), st)
  | some channel =>
    let rem := remove_user_channel st.db uid channel.id
    if rem.1 then
      let remaining := get_channel_users rem.2 channel.id
      let watching' :=
        if remaining = [] then watchRemove st.watching channel.channel_id
        else st.watching
      ((true, channel.title), ⟨rem.2, watching'⟩)
    else ((false, "channel_not_in_list"), ⟨rem.2, st.watching⟩)

/-- Observable result of `ChannelWatcher.handle_new_message`: per realtime
subscriber the attempted send and its outcome, the post ids actually
recorded for digest subscribers, and the state afterwards. -/
structure IngestResult where
  delivered : List (Nat × SendOutcome)
  recorded : List Nat
  st : WState
  deriving DecidableEq

/-- One iteration of the subscriber loop in `handle_new_message` (lines
152–165): `off` is skipped, `realtime` goes through `_send_realtime`
(which catches every exception, so the loop always continues), `digest`
records the post. -/
def routeUser (outcomes : Nat → SendOutcome) (c : ChannelR) (mid : Nat)
    (txt : String) (now : Int) (acc : DB × List (Nat × SendOutcome) × List Nat)
    (u : UserR) : DB × List (Nat × SendOutcome) × List Nat :=
  if u.mode = "off" then acc
  else if u.mode = "realtime" then
    (acc.1, acc.2.1 ++ [(u.user_id, outcomes u.user_id)], acc.2.2)
  else if u.mode = "digest" then
    let ins := add_post acc.1 c.id mid txt now
    match ins.1 with
    | some pid => (ins.2, acc.2.1, acc.2.2 ++ [pid])
    | none => (ins.2, acc.2.1, acc.2.2)
  else acc

/-- `ChannelWatcher.handle_new_message`: drop events for external ids not
in the watch set or without a stored channel row; otherwise fan out to the
channel's subscribers. -/
def handle_new_message (outcomes : Nat → SendOutcome) (st : WState)
    (ext : Int) (mid : Nat) (txt : String) (now : Int) : IngestResult :=
  if ext ∈ st.watching then
    match get_channel_by_id st.db ext with
    | none => ⟨[], [], st⟩
    | some c =>
      let users := get_channel_users st.db c.id
      let acc := users.foldl (routeUser outcomes c mid txt now) (st.db, [], [])
      ⟨acc.2.1, acc.2.2, ⟨acc.1, st.watching⟩⟩
  else ⟨[], [], st⟩

/-! ### `NotificationSender` rate-limit behaviour

For the retry claim we additionally record, per call path, how many
transport attempts and retries happen.  `resolve_channel` handles
`FloodWaitError` by sleeping and calling itself again; it is modelled over
a finite trace of per-attempt transport responses. -/

/-- Per-attempt response of `client.get_entity` inside `resolve_channel`. -/
inductive ResolveOutcome where
  | ok (channel_id : Int) (title : String)
  | notFound
  | priv
  | floodWait (seconds : Nat)
  | err
  deriving DecidableEq

/-- `ChannelWatcher.resolve_channel` over a response trace: each attempt
consumes one response; `FloodWaitError` sleeps `seconds` and recurses on
the rest of the trace.  Returns (result, number of attempts, sleeps). -/
def resolve_channel_trace (username : String) :
    List ResolveOutcome → Option (String × Int × String) × Nat × List Nat
  | [] => (none, 0, [])
  | o :: rest =>
    match o with
    | .ok e t => (some (lstripAt username, e, t), 1, [])
    | .notFound => (none, 1, [])
    | .priv => (none, 1, [])
    | .err => (none, 1, [])
    | .floodWait s =>
      let tail := resolve_channel_trace username rest
      (tail.1, tail.2.1 + 1, s :: tail.2.2)

/-- Observable behaviour of one `_send_realtime` call. -/
structure RealtimeSendResult where
  sendCalls : Nat
  retries : Nat
  slept : List Nat
  delivered : Bool
  deriving DecidableEq

/-- `ChannelWatcher._send_realtime` (lines 170–187): one send; on
`FloodWaitError` sleep the signalled seconds and return WITHOUT retrying;
on any other exception log and return. -/
def send_realtime_once (outcome : SendOutcome) : RealtimeSendResult :=
  match outcome with
  | .ok => ⟨1, 0, [], true⟩
  | .floodWait s => ⟨1, 0, [s], false⟩
  | .failed => ⟨1, 0, [], false⟩

/-! ### Claim-side observation functions -/

/-- The channel titles of a fetched post list in first-encountered order. -/
def firstTitles (posts : List DPost) : List String :=
  posts.foldl (fun acc p => if p.channel_title ∈ acc then acc else acc ++ [p.channel_title]) []

/-- One step of grouping by OWNING CHANNEL (internal channel id). -/
def insertGroupByChannel (gs : List (Nat × List DPost)) (p : DPost) :
    List (Nat × List DPost) :=
  match gs with
  | [] => [(p.channel_id, [p])]
  | (cid, ps) :: rest =>
    if cid = p.channel_id then (cid, ps ++ [p]) :: rest
    else (cid, ps) :: insertGroupByChannel rest p

/-- Modelled from the spec's words (claim C3): "groups the posts by their
owning channel preserving first-encountered channel order" — grouping
keyed by the owning channel's id, not by its title.  Used only to compare
against the source's `groupPostsByTitle`. -/
def specGroupByOwningChannel (posts : List DPost) : List (Nat × List DPost) :=
  posts.foldl insertGroupByChannel []

/-- Modelled from the spec's words (claim C3): the digest message as it
would read if groups were keyed by owning channel (each group rendered with
the title of its first post, in the source's format). -/
def specDigestMessageByChannel (lang : String) (posts : List DPost) : String :=
  String.join (digest_header lang ::
    ((specGroupByOwningChannel posts).map fun g =>
      groupChunks ((g.2.head?.map DPost.channel_title).getD "") g.2).flatten)

/-- The condition of the early already-added check as the CODE performs it
(`get_channel_by_username` on the handle as given, so lowercased but with
any leading `'@'` kept). -/
def earlyHit (db : DB) (uid : Nat) (handle : String) : Prop :=
  ∃ c, get_channel_by_username db handle = some c ∧ (uid, c.id) ∈ db.user_channels

instance (db : DB) (uid : Nat) (handle : String) : Decidable (earlyHit db uid handle) :=
  match h : get_channel_by_username db handle with
  | some c =>
    decidable_of_iff ((uid, c.id) ∈ db.user_channels) (by
      constructor
      · intro hm; exact ⟨c, h, hm⟩
      · rintro ⟨c', hc', hm⟩
        rw [h] at hc'
        obtain rfl := Option.some.inj hc'
        exact hm)
  | none => isFalse (by rintro ⟨c', hc', _⟩; rw [h] at hc'; exact Option.noConfusion hc')

/-- Modelled from the spec's words (claim C6): the early check as the claim
states it — the handle "compared case-insensitively and ignoring any
leading `@`". -/
def specEarlyHit (db : DB) (uid : Nat) (handle : String) : Prop :=
  ∃ c, get_channel_by_username db (lstripAt handle) = some c ∧ (uid, c.id) ∈ db.user_channels

instance (db : DB) (uid : Nat) (handle : String) : Decidable (specEarlyHit db uid handle) :=
  match h : get_channel_by_username db (lstripAt handle) with
  | some c =>
    decidable_of_iff ((uid, c.id) ∈ db.user_channels) (by
      constructor
      · intro hm; exact ⟨c, h, hm⟩
      · rintro ⟨c', hc', hm⟩
        rw [h] at hc'
        obtain rfl := Option.some.inj hc'
        exact hm)
  | none => isFalse (by rintro ⟨c', hc', _⟩; rw [h] at hc'; exact Option.noConfusion hc')

/-! ## Theorems -/

/-- C1: ingestion is idempotent.  For a (channel, external message id)
pair with no stored post, calling `add_post` twice leaves exactly one
stored post with that key; the second call returns `none` (the caught
duplicate) and leaves the store unchanged instead of inserting a second
row. -/
theorem add_post_idempotent (db : DB) (cid mid : Nat) (text : String) (now1 now2 : Int)
    (h0 : db.posts.countP (fun p => decide (p.channel_id = cid ∧ p.message_id = mid)) = 0) :
    (add_post (add_post db cid mid text now1).2 cid mid text now2).1 = none ∧
    (add_post (add_post db cid mid text now1).2 cid mid text now2).2
      = (add_post db cid mid text now1).2 ∧
    (add_post (add_post db cid mid text now1).2 cid mid text now2).2.posts.countP
      (fun p => decide (p.channel_id = cid ∧ p.message_id = mid)) = 1 := by
  have hno : ¬ ∃ p ∈ db.posts, p.channel_id = cid ∧ p.message_id = mid := by
    rintro ⟨p, hp, hkey⟩
    have hc := List.countP_eq_zero.mp h0 p hp
    simp only [decide_eq_true_eq] at hc
    exact hc hkey
  refine ⟨?_, ?_, ?_⟩ <;>
    simp [add_post, hno, List.countP_append, h0]
  exact fun a ha h1 h2 => hno ⟨a, ha, h1, h2⟩

/-- Witness for C1 at a concrete store. -/
theorem add_post_idempotent_witness :
    (add_post (add_post ⟨[], [], [], [], 0, 0⟩ 1 42 "hi" 5).2 1 42 "hi" 6).1 = none ∧
    (add_post (add_post ⟨[], [], [], [], 0, 0⟩ 1 42 "hi" 5).2 1 42 "hi" 6).2
      = (add_post ⟨[], [], [], [], 0, 0⟩ 1 42 "hi" 5).2 ∧
    (add_post (add_post ⟨[], [], [], [], 0, 0⟩ 1 42 "hi" 5).2 1 42 "hi" 6).2.posts.countP
      (fun p => decide (p.channel_id = 1 ∧ p.message_id = 42)) = 1 :=
  add_post_idempotent ⟨[], [], [], [], 0, 0⟩ 1 42 "hi" 5 6 (by decide)

/-- Helper: a decidable filter and its complement split the length. -/
theorem length_filter_decide_split {α : Type} (l : List α) (q : α → Prop)
    [DecidablePred q] :
    (l.filter fun a => decide (q a)).length
      + (l.filter fun a => decide (¬ q a)).length = l.length := by
  induction l with
  | nil => rfl
  | cons a t ih =>
    simp only [decide_not] at ih ⊢
    by_cases h : q a <;> simp [h, List.filter_cons] <;> omega

/-- C8: `cleanup_old_posts` with a 7-day window deletes a stored post iff
its creation timestamp is strictly older than 7 days before now, returns
the exact number removed, and the deletion predicate is independent of the
sent flag. -/
theorem cleanup_old_posts_correct (db : DB) (now : Int) :
    (∀ p ∈ db.posts, (p ∈ (cleanup_old_posts db now 7).2.posts ↔ ¬ postExpired now 7 p)) ∧
    (∀ p ∈ (cleanup_old_posts db now 7).2.posts, p ∈ db.posts) ∧
    (cleanup_old_posts db now 7).1 + (cleanup_old_posts db now 7).2.posts.length
      = db.posts.length ∧
    (∀ (p : PostR) (b : Bool),
      (postExpired now 7 { p with sent := b } ↔ postExpired now 7 p)) := by
  refine ⟨?_, ?_, ?_, ?_⟩
  · intro p hp
    simp [cleanup_old_posts, List.mem_filter, hp]
  · intro p hp
    simp only [cleanup_old_posts] at hp
    exact (List.mem_filter.mp hp).1
  · simp only [cleanup_old_posts]
    exact length_filter_decide_split db.posts (postExpired now 7)
  · intro p b
    simp [postExpired]

/-- Witness for C8: an 8-day-old sent post is purged, a young unsent post
is retained. -/
theorem cleanup_old_posts_correct_witness :
    (⟨2, 1, 2, "b", 1000000, false⟩ : PostR)
        ∈ (cleanup_old_posts ⟨[], [], [], [⟨1, 1, 1, "a", 0, true⟩,
            ⟨2, 1, 2, "b", 1000000, false⟩], 0, 3⟩ 1086400 7).2.posts ∧
    ¬ ((⟨1, 1, 1, "a", 0, true⟩ : PostR)
        ∈ (cleanup_old_posts ⟨[], [], [], [⟨1, 1, 1, "a", 0, true⟩,
            ⟨2, 1, 2, "b", 1000000, false⟩], 0, 3⟩ 1086400 7).2.posts) :=
  ⟨((cleanup_old_posts_correct ⟨[], [], [], [⟨1, 1, 1, "a", 0, true⟩,
      ⟨2, 1, 2, "b", 1000000, false⟩], 0, 3⟩ 1086400).1 _ (by decide)).mpr (by decide),
   fun hmem => ((cleanup_old_posts_correct ⟨[], [], [], [⟨1, 1, 1, "a", 0, true⟩,
      ⟨2, 1, 2, "b", 1000000, false⟩], 0, 3⟩ 1086400).1 _ (by decide)).mp hmem (by decide)⟩

/-- C7 counterexample: the code does NOT retry exactly once on a
rate-limit signal.  A rate-limited realtime send performs zero retries
(not one), and a resolution hit by two rate limits performs three
attempts (two retries) and still succeeds, never giving up. -/
theorem rateLimit_retry_counterexample :
    (send_realtime_once (.floodWait 5)).retries = 0 ∧
    ¬ (send_realtime_once (.floodWait 5)).retries = 1 ∧
    (resolve_channel_trace "x" [.floodWait 1, .floodWait 1, .ok 7 "T"]).2.1 = 3 ∧
    (resolve_channel_trace "x" [.floodWait 1, .floodWait 1, .ok 7 "T"]).1.isSome = true := by
  refine ⟨rfl, by decide, rfl, rfl⟩

/-- C7 amended: on a rate-limit signal the operation sleeps for exactly
the signalled duration, but the retry behaviour is asymmetric: resolution
retries recursively until the first non-rate-limited response (n rate
limits cause n+1 attempts, with no bound and no giving up), while a
rate-limited realtime or digest send sleeps and performs no retry at
all. -/
theorem rateLimit_retry_behavior (n s : Nat) (e : Int) (t u : String) (o : SendOutcome)
    (db : DB) (uid : Nat) (lang : String) (now : Int) :
    resolve_channel_trace u (List.replicate n (.floodWait s) ++ [.ok e t])
      = (some (lstripAt u, e, t), n + 1, List.replicate n s) ∧
    (send_realtime_once o).retries = 0 ∧
    (send_realtime_once (.floodWait s)).slept = [s] ∧
    (send_digest_to_user db uid lang now (.floodWait s)).attempts.length ≤ 1 ∧
    (send_digest_to_user db uid lang now (.floodWait s)).slept
      = (if get_unsent_posts_for_user db uid now = [] then [] else [s]) := by
  refine ⟨?_, ?_, rfl, ?_, ?_⟩
  · induction n with
    | zero => simp [resolve_channel_trace]
    | succ k ih => simp [List.replicate_succ, resolve_channel_trace, ih]
  · cases o <;> rfl
  · by_cases h : get_unsent_posts_for_user db uid now = [] <;>
      simp [send_digest_to_user, h]
  · by_cases h : get_unsent_posts_for_user db uid now = [] <;>
      simp [send_digest_to_user, h]

/-- C4: empty-digest asymmetry.  With an empty unsent set the scheduled
path sends nothing while the manual path sends the `no_posts` notice and
returns `false`; with a non-empty set the manual path delivers the digest
and returns `true`. -/
theorem digest_empty_asymmetry (db : DB) (uid : Nat) (lang : String) (now : Int)
    (outcome : SendOutcome) :
    (send_digest_to_user db uid lang now outcome).attempts
      = (if get_unsent_posts_for_user db uid now = [] then []
         else [buildDigestMessage lang (get_unsent_posts_for_user db uid now)]) ∧
    ((send_manual_digest db uid lang now outcome).1
      = !(get_unsent_posts_for_user db uid now).isEmpty) ∧
    (send_manual_digest db uid lang now outcome).2.attempts
      = (if get_unsent_posts_for_user db uid now = [] then [no_posts_msg lang]
         else [buildDigestMessage lang (get_unsent_posts_for_user db uid now)]) := by
  by_cases h : get_unsent_posts_for_user db uid now = [] <;>
    cases outcome <;>
    simp [send_digest_to_user, send_manual_digest, h, List.isEmpty_iff]

/-- Helper: one loop step appends a delivery attempt exactly for a
realtime-mode subscriber, whatever the send outcome. -/
theorem routeUser_delivered (outcomes : Nat → SendOutcome) (c : ChannelR)
    (mid : Nat) (txt : String) (now : Int)
    (acc : DB × List (Nat × SendOutcome) × List Nat) (u : UserR) :
    (routeUser outcomes c mid txt now acc u).2.1
      = acc.2.1 ++ (if u.mode = "realtime"
          then [(u.user_id, outcomes u.user_id)] else []) := by
  unfold routeUser
  by_cases h1 : u.mode = "off"
  · simp [h1]
  · by_cases h2 : u.mode = "realtime"
    · simp [h1, h2]
    · by_cases h3 : u.mode = "digest"
      · simp only [h1, h2, h3, if_true, if_false]
        cases (add_post acc.1 c.id mid txt now).1 <;> simp
      · simp [h1, h2, h3]

/-- Helper: the fan-out loop attempts a delivery for every realtime-mode
subscriber, independent of every per-recipient outcome. -/
theorem routeUsers_foldl_delivered (outcomes : Nat → SendOutcome) (c : ChannelR)
    (mid : Nat) (txt : String) (now : Int) (users : List UserR)
    (acc : DB × List (Nat × SendOutcome) × List Nat) :
    (users.foldl (routeUser outcomes c mid txt now) acc).2.1
      = acc.2.1 ++ (users.filter fun u => decide (u.mode = "realtime")).map
          (fun u => (u.user_id, outcomes u.user_id)) := by
  induction users generalizing acc with
  | nil => simp
  | cons u rest ih =>
    rw [List.foldl_cons, ih, routeUser_delivered]
    by_cases h2 : u.mode = "realtime" <;>
      simp [h2, List.filter_cons, List.append_assoc]

/-- Helper: one scheduler tick runs the digest loop over every fetched due
user, independent of per-user outcomes. -/
theorem tickUsers_processed (outcomes : Nat → SendOutcome) (now : Int)
    (db : DB) (users : List UserR) :
    (tickUsers outcomes now db users).2.map Prod.fst = users.map UserR.user_id := by
  induction users generalizing db with
  | nil => rfl
  | cons u rest ih => simp [tickUsers, ih]

/-- C9: delivery-failure isolation.  The set of subscribers a realtime
fan-out attempts is the full realtime-mode subscriber list, identical for
every assignment of per-recipient send outcomes (failures are absorbed
inside each recipient's send); likewise every due user of a scheduler
tick is processed, whatever each user's delivery outcome. -/
theorem delivery_failure_isolation (o1 o2 : Nat → SendOutcome) (st : WState)
    (ext : Int) (mid : Nat) (txt : String) (now : Int) (db : DB) (ct : String) :
    ((handle_new_message o1 st ext mid txt now).delivered.map Prod.fst
      = (handle_new_message o2 st ext mid txt now).delivered.map Prod.fst) ∧
    ((handle_new_message o1 st ext mid txt now).delivered.map Prod.fst
      = (if ext ∈ st.watching then
          (match get_channel_by_id st.db ext with
           | some c => ((get_channel_users st.db c.id).filter fun u =>
               decide (u.mode = "realtime")).map UserR.user_id
           | none => [])
         else [])) ∧
    ((schedulerTick db ct now o1).2.1.map Prod.fst
      = (get_users_for_digest db ct).map UserR.user_id) := by
  have hexp : ∀ o : Nat → SendOutcome,
      (handle_new_message o st ext mid txt now).delivered.map Prod.fst
        = (if ext ∈ st.watching then
            (match get_channel_by_id st.db ext with
             | some c => ((get_channel_users st.db c.id).filter fun u =>
                 decide (u.mode = "realtime")).map UserR.user_id
             | none => [])
           else []) := by
    intro o
    unfold handle_new_message
    by_cases hw : ext ∈ st.watching
    · cases hc : get_channel_by_id st.db ext with
      | none => simp [hw, hc]
      | some c =>
        simp only [hw, if_true, hc]
        rw [routeUsers_foldl_delivered]
        simp [Function.comp_def]
    · simp [hw]
  refine ⟨(hexp o1).trans (hexp o2).symm, hexp o1, ?_⟩
  by_cases hm : ct = "00:00" <;>
    simp [schedulerTick, hm, tickUsers_processed]

/-- C2: zero-subscription channels generate nothing.  A channel row whose
subscriber list is empty yields no recorded post and no delivery attempt
on ingest; and after `remove_channel_for_user` removes a channel's last
subscriber, the channel's external id leaves the watch set and a
subsequent ingest event for it records nothing and delivers nothing. -/
theorem zero_subscription_no_routing (o : Nat → SendOutcome) (st : WState)
    (uid : Nat) (handle : String) (ext : Int) (mid : Nat) (txt : String) (now : Int) :
    (∀ st' : WState, ∀ c, get_channel_by_id st'.db ext = some c →
        get_channel_users st'.db c.id = [] →
        (handle_new_message o st' ext mid txt now).delivered = [] ∧
        (handle_new_message o st' ext mid txt now).recorded = []) ∧
    (∀ c, get_channel_by_username st.db (lstripAt handle) = some c →
        (remove_channel_for_user st uid handle).1.1 = true →
        get_channel_users (remove_channel_for_user st uid handle).2.db c.id = [] →
        ¬ c.channel_id ∈ (remove_channel_for_user st uid handle).2.watching ∧
        (handle_new_message o (remove_channel_for_user st uid handle).2
            c.channel_id mid txt now).delivered = [] ∧
        (handle_new_message o (remove_channel_for_user st uid handle).2
            c.channel_id mid txt now).recorded = []) := by
  constructor
  · intro st' c hc hempty
    unfold handle_new_message
    by_cases hw : ext ∈ st'.watching
    · simp [hw, hc, hempty]
    · simp [hw]
  · intro c hlookup hsucc hrem
    simp only [remove_channel_for_user, hlookup] at hsucc hrem ⊢
    by_cases hin : (uid, c.id) ∈ st.db.user_channels
    · simp only [remove_user_channel, decide_eq_true_eq, hin, if_true] at hsucc hrem ⊢
      simp only [hrem, if_true]
      refine ⟨by simp [watchRemove, List.mem_filter], ?_, ?_⟩ <;>
        simp [handle_new_message, watchRemove, List.mem_filter]
    · simp [remove_user_channel, hin] at hsucc

/-- Witness for C2: a one-subscriber channel; after the unsubscribe an
ingest event for its external id is dropped entirely. -/
theorem zero_subscription_no_routing_witness :
    get_channel_by_username
        (⟨[⟨7, "digest", "09:00", "uz"⟩], [⟨1, "foo", 100, "Foo"⟩], [(7, 1)], [], 2, 1⟩ : DB)
        (lstripAt "@foo") = some ⟨1, "foo", 100, "Foo"⟩ ∧
    (remove_channel_for_user
        ⟨⟨[⟨7, "digest", "09:00", "uz"⟩], [⟨1, "foo", 100, "Foo"⟩], [(7, 1)], [], 2, 1⟩, [100]⟩
        7 "@foo").1.1 = true ∧
    ¬ (100 : Int) ∈ (remove_channel_for_user
        ⟨⟨[⟨7, "digest", "09:00", "uz"⟩], [⟨1, "foo", 100, "Foo"⟩], [(7, 1)], [], 2, 1⟩, [100]⟩
        7 "@foo").2.watching ∧
    (handle_new_message (fun _ => SendOutcome.ok)
        (remove_channel_for_user
          ⟨⟨[⟨7, "digest", "09:00", "uz"⟩], [⟨1, "foo", 100, "Foo"⟩], [(7, 1)], [], 2, 1⟩, [100]⟩
          7 "@foo").2 100 55 "hello" 0).delivered = [] ∧
    (handle_new_message (fun _ => SendOutcome.ok)
        (remove_channel_for_user
          ⟨⟨[⟨7, "digest", "09:00", "uz"⟩], [⟨1, "foo", 100, "Foo"⟩], [(7, 1)], [], 2, 1⟩, [100]⟩
          7 "@foo").2 100 55 "hello" 0).recorded = [] := by
  have hmain := (zero_subscription_no_routing (fun _ => SendOutcome.ok)
    ⟨⟨[⟨7, "digest", "09:00", "uz"⟩], [⟨1, "foo", 100, "Foo"⟩], [(7, 1)], [], 2, 1⟩, [100]⟩
    7 "@foo" 100 55 "hello" 0).2 ⟨1, "foo", 100, "Foo"⟩ (by decide) (by decide) (by decide)
  exact ⟨by decide, by decide, hmain.1, hmain.2.1, hmain.2.2⟩

/-- Helper: the keys after one grouping step. -/
theorem insertGroup_keys (gs : List (String × List DPost)) (p : DPost) :
    (insertGroup gs p).map Prod.fst
      = if p.channel_title ∈ gs.map Prod.fst then gs.map Prod.fst
        else gs.map Prod.fst ++ [p.channel_title] := by
  induction gs with
  | nil => simp [insertGroup]
  | cons g rest ih =>
    obtain ⟨t, ps⟩ := g
    by_cases h : t = p.channel_title
    · simp [insertGroup, h]
    · have h' : ¬ p.channel_title = t := fun e => h e.symm
      by_cases h2 : p.channel_title ∈ rest.map Prod.fst <;>
        simp [insertGroup, h, h', h2, ih]

/-- Helper: the grouping fold's keys are the fold of first-encountered
titles. -/
theorem groupFold_keys (posts : List DPost) (gs : List (String × List DPost)) :
    (posts.foldl insertGroup gs).map Prod.fst
      = posts.foldl
          (fun acc p => if p.channel_title ∈ acc then acc else acc ++ [p.channel_title])
          (gs.map Prod.fst) := by
  induction posts generalizing gs with
  | nil => rfl
  | cons p rest ih =>
    rw [List.foldl_cons, ih, insertGroup_keys, List.foldl_cons]

/-- C3/C10 helper: group keys are the fetched titles in first-encountered
order. -/
theorem groupPostsByTitle_keys (posts : List DPost) :
    (groupPostsByTitle posts).map Prod.fst = firstTitles posts :=
  groupFold_keys posts []

/-- Helper: one grouping step preserves the per-group contents invariant. -/
theorem insertGroup_contents (done : List DPost) (p : DPost) :
    ∀ gs : List (String × List DPost), (gs.map Prod.fst).Nodup →
    (∀ g ∈ gs, g.2 = done.filter fun q => decide (q.channel_title = g.1)) →
    (p.channel_title ∉ gs.map Prod.fst →
      (done.filter fun q => decide (q.channel_title = p.channel_title)) = []) →
    ∀ g ∈ insertGroup gs p,
      g.2 = (done ++ [p]).filter fun q => decide (q.channel_title = g.1) := by
  intro gs
  induction gs with
  | nil =>
    intro _ _ hnew g hg
    simp only [insertGroup, List.mem_singleton] at hg
    subst hg
    simp [List.filter_append, hnew (by simp)]
  | cons hd rest ih =>
    obtain ⟨t, ps⟩ := hd
    intro hnd hInv hnew g hg
    have hnd' := List.nodup_cons.mp (show (t :: rest.map Prod.fst).Nodup by simpa using hnd)
    by_cases h : t = p.channel_title
    · have hstep : insertGroup ((t, ps) :: rest) p = (t, ps ++ [p]) :: rest := by
        simp [insertGroup, h]
      rw [hstep] at hg
      rcases List.mem_cons.mp hg with rfl | hgrest
      · have hps := hInv (t, ps) (List.mem_cons_self _ _)
        simp only at hps
        show ps ++ [p] = (done ++ [p]).filter fun q => decide (q.channel_title = t)
        rw [List.filter_append, ← hps]
        simp [h.symm]
      · have hg2 := hInv g (List.mem_cons_of_mem _ hgrest)
        have hkey : g.1 ∈ rest.map Prod.fst := List.mem_map_of_mem Prod.fst hgrest
        have hne : ¬ p.channel_title = g.1 := by
          rw [← h]; exact fun e => hnd'.1 (e ▸ hkey)
        rw [List.filter_append, hg2]
        have hemp : (List.filter (fun q => decide (q.channel_title = g.1)) [p]) = [] := by
          simp [hne]
        rw [hemp, List.append_nil]
    · have h' : ¬ p.channel_title = t := fun e => h e.symm
      have hstep : insertGroup ((t, ps) :: rest) p = (t, ps) :: insertGroup rest p := by
        simp [insertGroup, h]
      rw [hstep] at hg
      rcases List.mem_cons.mp hg with rfl | hgrest
      · have hps := hInv (t, ps) (List.mem_cons_self _ _)
        simp only at hps
        show ps = (done ++ [p]).filter fun q => decide (q.channel_title = t)
        rw [List.filter_append, ← hps]
        have hemp : (List.filter (fun q => decide (q.channel_title = t)) [p]) = [] := by
          simp [h']
        rw [hemp, List.append_nil]
      · refine ih hnd'.2
          (fun g' hg' => hInv g' (List.mem_cons_of_mem _ hg'))
          (fun hnin => hnew (by simp [h', hnin])) g hgrest

/-- Helper: nodup of group keys is preserved by one grouping step. -/
theorem insertGroup_keys_nodup (gs : List (String × List DPost)) (p : DPost)
    (hnd : (gs.map Prod.fst).Nodup) : ((insertGroup gs p).map Prod.fst).Nodup := by
  rw [insertGroup_keys]
  by_cases h : p.channel_title ∈ gs.map Prod.fst
  · simpa [h] using hnd
  · simp only [h, if_false]
    rw [List.nodup_append]
    exact ⟨hnd, List.nodup_singleton _, by simpa using h⟩

/-- Helper: one grouping step keeps every key of the accumulator and adds
the new post's title. -/
theorem insertGroup_keys_superset (gs : List (String × List DPost)) (p : DPost) :
    (∀ t ∈ gs.map Prod.fst, t ∈ (insertGroup gs p).map Prod.fst) ∧
    p.channel_title ∈ (insertGroup gs p).map Prod.fst := by
  rw [insertGroup_keys]
  by_cases h : p.channel_title ∈ gs.map Prod.fst
  · rw [if_pos h]
    exact ⟨fun t ht => ht, h⟩
  · rw [if_neg h]
    exact ⟨fun t ht => List.mem_append_left _ ht,
      List.mem_append_right _ (List.mem_singleton_self _)⟩

/-- Helper: the grouping fold computes, per group, exactly the fetched
posts bearing that title, in order. -/
theorem groupFold_contents (posts : List DPost) :
    ∀ (gs : List (String × List DPost)) (done : List DPost),
    (gs.map Prod.fst).Nodup →
    (∀ g ∈ gs, g.2 = done.filter fun q => decide (q.channel_title = g.1)) →
    (∀ q ∈ done, q.channel_title ∈ gs.map Prod.fst) →
    ∀ g ∈ posts.foldl insertGroup gs,
      g.2 = (done ++ posts).filter fun q => decide (q.channel_title = g.1) := by
  induction posts with
  | nil =>
    intro gs done hnd hInv _ g hg
    simpa using hInv g hg
  | cons p rest ih =>
    intro gs done hnd hInv hcov g hg
    rw [List.foldl_cons] at hg
    have hnew : p.channel_title ∉ gs.map Prod.fst →
        (done.filter fun q => decide (q.channel_title = p.channel_title)) = [] := by
      intro hnin
      rw [List.filter_eq_nil_iff]
      intro q hq
      simp only [decide_eq_true_eq]
      exact fun e => hnin (e ▸ hcov q hq)
    have := ih (insertGroup gs p) (done ++ [p])
      (insertGroup_keys_nodup gs p hnd)
      (insertGroup_contents done p gs hnd hInv hnew)
      (by
        intro q hq
        rcases List.mem_append.mp hq with hq | hq
        · exact (insertGroup_keys_superset gs p).1 _ (hcov q hq)
        · rw [List.mem_singleton.mp hq]
          exact (insertGroup_keys_superset gs p).2)
      g hg
    simpa [List.append_assoc] using this

/-- C3/C10 helper: each rendered group holds exactly the fetched posts of
its title, in fetched order. -/
theorem groupPostsByTitle_contents (posts : List DPost) :
    ∀ g ∈ groupPostsByTitle posts,
      g.2 = posts.filter fun q => decide (q.channel_title = g.1) := by
  intro g hg
  simpa using groupFold_contents posts [] [] (by simp) (by simp) (by simp) g hg

/-- Helper: truncation never turns a non-empty text into an empty one. -/
theorem truncPost_ne_empty {t : String} (h : ¬ t = "") : ¬ truncPost t = "" := by
  unfold truncPost
  split
  · intro he
    have hlen := congrArg String.length he
    have hdots : ("..." : String).length = 3 := rfl
    rw [String.length_append, hdots] at hlen
    simp at hlen
  · exact h

/-- Helper: the number of bullet lines of a group is the number of posts
with non-empty text among its first five. -/
theorem bulletChunks_length (l : List DPost) :
    (bulletChunksOf l).length
      = ((l.take 5).filter fun q => decide (¬ q.text = "")).length := by
  unfold bulletChunksOf
  generalize l.take 5 = m
  induction m with
  | nil => rfl
  | cons q rest ih =>
    by_cases h : q.text = ""
    · have ht : truncPost "" = "" := by decide
      simp [List.filterMap_cons, List.filter_cons, h, ht, ih]
    · have ht := truncPost_ne_empty h
      simp [List.filterMap_cons, List.filter_cons, h, ht, ih]

/-- Helper: a filter misses length when some member fails the predicate. -/
theorem length_filter_lt_of_mem_not {α : Type} (l : List α) (p : α → Prop)
    [DecidablePred p] (a : α) (ha : a ∈ l) (hna : ¬ p a) :
    (l.filter fun x => decide (p x)).length < l.length := by
  induction l with
  | nil => cases ha
  | cons b rest ih =>
    rcases List.mem_cons.mp ha with he | ha'
    · have hb : ¬ p b := he ▸ hna
      simp only [List.filter_cons, hb, decide_eq_true_eq, if_neg, decide_eq_false hb,
        Bool.false_eq_true, List.length_cons]
      exact Nat.lt_succ_of_le (List.length_filter_le _ _)
    · by_cases hb : p b
      · simp only [List.filter_cons, decide_eq_true hb, if_pos, List.length_cons]
        exact Nat.succ_lt_succ (ih ha')
      · simp only [List.filter_cons, decide_eq_false hb, Bool.false_eq_true, if_neg,
          List.length_cons]
        exact Nat.lt_succ_of_lt (ih ha')

/-- Helper: effect of a non-empty bulk mark-sent on each stored row. -/
theorem mark_posts_sent_mem (db : DB) (ids : List Nat) (hids : ¬ ids = []) :
    ∀ p ∈ db.posts,
      (p.id ∈ ids → { p with sent := true } ∈ (mark_posts_sent db ids).posts) ∧
      (¬ p.id ∈ ids → p ∈ (mark_posts_sent db ids).posts) := by
  intro p hp
  unfold mark_posts_sent
  rw [if_neg hids]
  constructor
  · intro hin
    have := List.mem_map_of_mem
      (fun q : PostR => if q.id ∈ ids then { q with sent := true } else q) hp
    simpa [hin] using this
  · intro hout
    have := List.mem_map_of_mem
      (fun q : PostR => if q.id ∈ ids then { q with sent := true } else q) hp
    simpa [hout] using this

/-- C3 counterexample: the digest groups by channel TITLE, not by owning
channel.  Two posts owned by different channels that share a title land in
one rendered group, and the composed message differs from the one grouped
by owning channel. -/
theorem digest_groups_by_title_not_channel :
    (groupPostsByTitle [⟨1, 1, 5, "a", 0, "T"⟩, ⟨2, 2, 6, "b", 0, "T"⟩]).length = 1 ∧
    (specGroupByOwningChannel [⟨1, 1, 5, "a", 0, "T"⟩, ⟨2, 2, 6, "b", 0, "T"⟩]).length = 2 ∧
    (∃ g ∈ groupPostsByTitle [⟨1, 1, 5, "a", 0, "T"⟩, ⟨2, 2, 6, "b", 0, "T"⟩],
      ∃ p ∈ g.2, ∃ q ∈ g.2, ¬ p.channel_id = q.channel_id) ∧
    ¬ buildDigestMessage "uz" [⟨1, 1, 5, "a", 0, "T"⟩, ⟨2, 2, 6, "b", 0, "T"⟩]
        = specDigestMessageByChannel "uz" [⟨1, 1, 5, "a", 0, "T"⟩, ⟨2, 2, 6, "b", 0, "T"⟩] := by
  refine ⟨rfl, rfl, by decide, by decide⟩

/-- C3 (amended: grouping is keyed by channel title rather than owning
channel): for a user with a non-empty fetched set, exactly one message is
attempted, equal to the composed digest; groups are keyed by title in
first-encountered order and hold exactly the fetched posts of that title;
each group lists at most 5 bullet lines; texts longer than 100 are
truncated to 100 plus an ellipsis; the "+N more" marker appears iff the
group has more than 5 posts; and every fetched post id (listed or not) is
marked sent. -/
theorem deliverDigest_render (db : DB) (uid : Nat) (lang : String) (now : Int)
    (posts : List DPost) (hposts : posts = get_unsent_posts_for_user db uid now)
    (hne : ¬ posts = []) :
    (send_digest_to_user db uid lang now .ok).attempts = [buildDigestMessage lang posts] ∧
    (groupPostsByTitle posts).map Prod.fst = firstTitles posts ∧
    (∀ g ∈ groupPostsByTitle posts,
      g.2 = posts.filter fun q => decide (q.channel_title = g.1)) ∧
    (∀ g ∈ groupPostsByTitle posts, (bulletChunksOf g.2).length ≤ 5) ∧
    (∀ g ∈ groupPostsByTitle posts,
      groupChunks g.1 g.2
        = groupHeader g.1 g.2.length :: (bulletChunksOf g.2 ++ moreChunk g.2 ++ ["\n"])) ∧
    (∀ g ∈ groupPostsByTitle posts, (¬ moreChunk g.2 = [] ↔ 5 < g.2.length)) ∧
    (∀ t : String, t.length ≤ 100 → truncPost t = t) ∧
    (∀ t : String, 100 < t.length → truncPost t = t.take 100 ++ "...") ∧
    (∀ p ∈ db.posts,
      (p.id ∈ posts.map DPost.id →
        { p with sent := true } ∈ (send_digest_to_user db uid lang now .ok).db.posts) ∧
      (¬ p.id ∈ posts.map DPost.id →
        p ∈ (send_digest_to_user db uid lang now .ok).db.posts)) := by
  have hsend : send_digest_to_user db uid lang now .ok
      = ⟨[buildDigestMessage lang posts], [],
         mark_posts_sent db (posts.map DPost.id)⟩ := by
    rw [hposts] at hne ⊢
    simp [send_digest_to_user, hne]
  refine ⟨by rw [hsend], groupPostsByTitle_keys posts, groupPostsByTitle_contents posts,
    ?_, ?_, ?_, ?_, ?_, ?_⟩
  · intro g _
    calc (bulletChunksOf g.2).length
        = ((g.2.take 5).filter fun q => decide (¬ q.text = "")).length :=
          bulletChunks_length g.2
      _ ≤ (g.2.take 5).length := List.length_filter_le _ _
      _ ≤ 5 := by rw [List.length_take]; exact Nat.min_le_left _ _
  · intro g _
    rfl
  · intro g _
    unfold moreChunk
    by_cases h5 : 5 < g.2.length <;> simp [h5]
  · intro t ht
    simp [truncPost, Nat.not_lt.mpr ht]
  · intro t ht
    simp [truncPost, ht]
  · intro p hp
    rw [hsend]
    have hids : ¬ posts.map DPost.id = [] := by
      intro he
      exact hne (List.map_eq_nil_iff.mp he)
    exact mark_posts_sent_mem db (posts.map DPost.id) hids p hp

/-- Witness for C3 at a concrete store with two fetched posts. -/
theorem deliverDigest_render_witness :
    (send_digest_to_user
        ⟨[⟨9, "digest", "09:00", "uz"⟩], [⟨1, "a", 10, "A"⟩], [(9, 1)],
         [⟨1, 1, 1, "hello", 99999, false⟩, ⟨2, 1, 2, "world", 99998, false⟩], 2, 3⟩
        9 "uz" 100000 .ok).attempts
      = [buildDigestMessage "uz"
          (get_unsent_posts_for_user
            ⟨[⟨9, "digest", "09:00", "uz"⟩], [⟨1, "a", 10, "A"⟩], [(9, 1)],
             [⟨1, 1, 1, "hello", 99999, false⟩, ⟨2, 1, 2, "world", 99998, false⟩], 2, 3⟩
            9 100000)] :=
  (deliverDigest_render
    ⟨[⟨9, "digest", "09:00", "uz"⟩], [⟨1, "a", 10, "A"⟩], [(9, 1)],
     [⟨1, 1, 1, "hello", 99999, false⟩, ⟨2, 1, 2, "world", 99998, false⟩], 2, 3⟩
    9 "uz" 100000 _ rfl (by decide)).1

/-- C10: a fetched post with empty stored text is counted in its group's
header post count and is marked sent, but yields no bullet line, so a
group containing one among its first five lists fewer than
`min 5 (group size)` bullet lines. -/
theorem empty_text_post_semantics (db : DB) (uid : Nat) (lang : String) (now : Int)
    (posts : List DPost) (hposts : posts = get_unsent_posts_for_user db uid now)
    (hne : ¬ posts = []) (p : DPost) (hp : p ∈ posts) (hempty : p.text = "") :
    p.id ∈ posts.map DPost.id ∧
    (∀ q ∈ db.posts, q.id ∈ posts.map DPost.id →
      { q with sent := true } ∈ (send_digest_to_user db uid lang now .ok).db.posts) ∧
    (∀ g ∈ groupPostsByTitle posts, p ∈ g.2 →
      ((groupChunks g.1 g.2).head? = some (groupHeader g.1 g.2.length) ∧
       (bulletChunksOf g.2).length
         = ((g.2.take 5).filter fun q => decide (¬ q.text = "")).length ∧
       (∀ c ∈ bulletChunksOf g.2, ¬ c = "  • " ++ truncPost p.text ++ "\n") ∧
       (p ∈ g.2.take 5 → (bulletChunksOf g.2).length < min 5 g.2.length))) := by
  have hsend : send_digest_to_user db uid lang now .ok
      = ⟨[buildDigestMessage lang posts], [],
         mark_posts_sent db (posts.map DPost.id)⟩ := by
    rw [hposts] at hne ⊢
    simp [send_digest_to_user, hne]
  have htr0 : truncPost "" = "" := by decide
  refine ⟨List.mem_map_of_mem DPost.id hp, ?_, ?_⟩
  · intro q hq hqid
    rw [hsend]
    have hids : ¬ posts.map DPost.id = [] := by
      intro he
      exact hne (List.map_eq_nil_iff.mp he)
    exact (mark_posts_sent_mem db (posts.map DPost.id) hids q hq).1 hqid
  · intro g _ _
    refine ⟨rfl, bulletChunks_length g.2, ?_, ?_⟩
    · intro c hc heq
      obtain ⟨q, hq, hqc⟩ := List.mem_filterMap.mp hc
      simp only at hqc
      by_cases hqe : truncPost q.text = ""
      · rw [if_pos hqe] at hqc
        cases hqc
      · rw [if_neg hqe] at hqc
        have hc' := Option.some.inj hqc
        rw [← hc', hempty, htr0] at heq
        have hL := congrArg String.length heq
        simp only [String.length_append] at hL
        have h0 : ("" : String).length = 0 := rfl
        rw [h0] at hL
        have hq0 : (truncPost q.text).length = 0 := by omega
        apply hqe
        cases hqt : truncPost q.text with
        | mk data =>
          rw [hqt] at hq0
          have : data = [] := List.length_eq_zero.mp hq0
          rw [this]
    · intro hptake
      rw [bulletChunks_length]
      calc ((g.2.take 5).filter fun q => decide (¬ q.text = "")).length
          < (g.2.take 5).length :=
            length_filter_lt_of_mem_not (g.2.take 5) (fun q => ¬ q.text = "") p hptake
              (not_not_intro hempty)
        _ = min 5 g.2.length := List.length_take _ _

/-- Witness for C10: a two-post group with one empty-text post lists only
one bullet line, fewer than `min 5 2`. -/
theorem empty_text_post_semantics_witness :
    (bulletChunksOf [⟨1, 1, 1, "", 99999, "A"⟩, ⟨2, 1, 2, "x", 99998, "A"⟩]).length
      < min 5 ([(⟨1, 1, 1, "", 99999, "A"⟩ : DPost), ⟨2, 1, 2, "x", 99998, "A"⟩]).length :=
  ((empty_text_post_semantics
    ⟨[⟨9, "digest", "09:00", "uz"⟩], [⟨1, "a", 10, "A"⟩], [(9, 1)],
     [⟨1, 1, 1, "", 99999, false⟩, ⟨2, 1, 2, "x", 99998, false⟩], 2, 3⟩
    9 "uz" 100000 _ rfl (by decide) ⟨1, 1, 1, "", 99999, "A"⟩ (by decide) rfl).2.2
    ("A", [⟨1, 1, 1, "", 99999, "A"⟩, ⟨2, 1, 2, "x", 99998, "A"⟩])
    (by decide) (by decide)).2.2.2 (by decide)

/-- Helper: lazy user creation touches only the `users` table. -/
theorem get_or_create_user_preserves (db : DB) (uid : Nat) :
    (get_or_create_user db uid).2.channels = db.channels ∧
    (get_or_create_user db uid).2.user_channels = db.user_channels ∧
    (get_or_create_user db uid).2.posts = db.posts ∧
    (get_or_create_user db uid).2.next_channel_id = db.next_channel_id := by
  unfold get_or_create_user
  cases db.users.find? (fun u => decide (u.user_id = uid)) <;> simp

/-- Helper: the resolve-and-insert tail always reaches external
resolution. -/
theorem addChannelResolvePath_attempted (transport : String → Option (Int × String))
    (st : WState) (uid : Nat) (handle : String) :
    (addChannelResolvePath transport st uid handle).resolveAttempted = true := by
  unfold addChannelResolvePath
  cases resolve_channel transport handle with
  | none => rfl
  | some info =>
    simp only []
    split <;> rfl

/-- C6 counterexample: with channel `foo` stored and subscribed by user 7,
the handle `"@foo"` satisfies the claim's early-check condition (handle
compared case-insensitively and ignoring the leading `@`), yet the call
reaches external resolution — the early check missed because the code
does not strip the `@`. -/
theorem subscribe_early_check_counterexample :
    specEarlyHit ⟨[⟨7, "realtime", "09:00", "uz"⟩], [⟨1, "foo", 100, "Foo"⟩],
        [(7, 1)], [], 2, 1⟩ 7 "@foo" ∧
    ¬ earlyHit ⟨[⟨7, "realtime", "09:00", "uz"⟩], [⟨1, "foo", 100, "Foo"⟩],
        [(7, 1)], [], 2, 1⟩ 7 "@foo" ∧
    (add_channel_for_user (fun u => if u = "foo" then some (100, "Foo") else none)
      ⟨⟨[⟨7, "realtime", "09:00", "uz"⟩], [⟨1, "foo", 100, "Foo"⟩],
        [(7, 1)], [], 2, 1⟩, [100]⟩ 7 "@foo").resolveAttempted = true := by
  refine ⟨by decide, by decide, by decide⟩

/-- C6 (amended: the early check compares the handle case-insensitively
but does NOT ignore a leading `@`): the call skips external resolution
exactly when the handle as given, lowercased, names a stored channel the
user subscribes to, and in that case it returns the AlreadyAdded outcome;
in every other case (including an `@`-prefixed handle naming a subscribed
channel) external resolution is attempted. -/
theorem subscribe_early_check (transport : String → Option (Int × String))
    (st : WState) (uid : Nat) (handle : String) :
    ((add_channel_for_user transport st uid handle).resolveAttempted = false
      ↔ earlyHit st.db uid handle) ∧
    (earlyHit st.db uid handle →
      (add_channel_for_user transport st uid handle).success = false ∧
      (add_channel_for_user transport st uid handle).message = "channel_already_added") := by
  have hpres := get_or_create_user_preserves st.db uid
  have hchan : get_channel_by_username (get_or_create_user st.db uid).2 handle
      = get_channel_by_username st.db handle := by
    unfold get_channel_by_username
    rw [hpres.1]
  unfold add_channel_for_user
  simp only [hchan]
  cases hex : get_channel_by_username st.db handle with
  | none =>
    have hnh : ¬ earlyHit st.db uid handle := by
      rintro ⟨c, hc, _⟩
      rw [hex] at hc
      exact Option.noConfusion hc
    dsimp only
    simp only [addChannelResolvePath_attempted]
    exact ⟨by simp [hnh], fun h => absurd h hnh⟩
  | some c =>
    dsimp only
    have hhit : earlyHit st.db uid handle ↔ (uid, c.id) ∈ st.db.user_channels := by
      constructor
      · rintro ⟨c', hc', hm⟩
        rw [hex] at hc'
        obtain rfl := Option.some.inj hc'
        exact hm
      · intro hm
        exact ⟨c, hex, hm⟩
    by_cases hhas : (uid, c.id) ∈ st.db.user_channels
    · have hb : user_has_channel (get_or_create_user st.db uid).2 uid c.id = true := by
        unfold user_has_channel
        rw [hpres.2.1]
        exact decide_eq_true hhas
      rw [if_pos hb]
      exact ⟨by simpa [hhit] using hhas, fun _ => ⟨rfl, rfl⟩⟩
    · have hb : ¬ user_has_channel (get_or_create_user st.db uid).2 uid c.id = true := by
        unfold user_has_channel
        rw [hpres.2.1]
        simpa using hhas
      rw [if_neg hb]
      simp only [addChannelResolvePath_attempted]
      exact ⟨by simp [hhit, hhas], fun h => absurd (hhit.mp h) hhas⟩

/-- Witness for C6 at a concrete store: a lowercase-mismatching handle
without `@` fires the early check, skips resolution and reports
AlreadyAdded. -/
theorem subscribe_early_check_witness :
    (add_channel_for_user (fun _ => none)
      ⟨⟨[⟨7, "realtime", "09:00", "uz"⟩], [⟨1, "foo", 100, "Foo"⟩],
        [(7, 1)], [], 2, 1⟩, [100]⟩ 7 "FOO").resolveAttempted = false ∧
    (add_channel_for_user (fun _ => none)
      ⟨⟨[⟨7, "realtime", "09:00", "uz"⟩], [⟨1, "foo", 100, "Foo"⟩],
        [(7, 1)], [], 2, 1⟩, [100]⟩ 7 "FOO").message = "channel_already_added" :=
  ⟨(subscribe_early_check (fun _ => none)
      ⟨⟨[⟨7, "realtime", "09:00", "uz"⟩], [⟨1, "foo", 100, "Foo"⟩],
        [(7, 1)], [], 2, 1⟩, [100]⟩ 7 "FOO").1.mpr (by decide),
   ((subscribe_early_check (fun _ => none)
      ⟨⟨[⟨7, "realtime", "09:00", "uz"⟩], [⟨1, "foo", 100, "Foo"⟩],
        [(7, 1)], [], 2, 1⟩, [100]⟩ 7 "FOO").2 (by decide)).2⟩

/-- Helper: ASCII lowercasing maps no other character to `'@'`. -/
theorem toLower_at {c : Char} (h : c.toLower = '@') : c = '@' := by
  simp only [Char.toLower] at h
  split at h
  · rename_i hn
    exfalso
    have key : ∀ m : Nat, m < 91 → 65 ≤ m → ¬ Char.ofNat (m + 32) = '@' := by decide
    exact key c.toNat (Nat.lt_succ_of_le hn.2) hn.1 h
  · exact h

/-- Helper: lowercasing keeps or removes a leading `'@'` in lockstep. -/
theorem pyLower_head_at (s : String) :
    (pyLower s).data.head? = some '@' ↔ s.data.head? = some '@' := by
  unfold pyLower
  rw [show (String.mk (s.data.map Char.toLower)).data = s.data.map Char.toLower from rfl,
    List.head?_map]
  cases s.data with
  | nil => simp
  | cons a l =>
    simp only [List.head?_cons, Option.map_some']
    constructor
    · intro he
      rw [toLower_at (Option.some.inj he)]
    · intro he
      rw [Option.some.inj he]
      rfl

/-- Helper: a `lstrip("@")`-stripped string has no leading `'@'`. -/
theorem lstripAt_head (s : String) : ¬ (lstripAt s).data.head? = some '@' := by
  intro hcon
  have hh := List.head?_dropWhile_not (fun c => decide (c = '@')) s.data
  have hc : (s.data.dropWhile (fun c => decide (c = '@'))).head? = some '@' := hcon
  rw [hc] at hh
  simp at hh

/-- Helper: stripping is the identity without a leading `'@'`. -/
theorem lstripAt_self {s : String} (h : ¬ s.data.head? = some '@') : lstripAt s = s := by
  have hd : s.data.dropWhile (fun c => decide (c = '@')) = s.data := by
    cases hs : s.data with
    | nil => rfl
    | cons a l =>
      have ha : ¬ a = '@' := by
        rw [hs] at h
        simpa using h
      simp [List.dropWhile_cons, ha]
  unfold lstripAt
  rw [hd]

/-- Helper: the channel-row refresh keeps username and internal id. -/
theorem updChan_preserves (rid : Nat) (e : Int) (t : String) (d : ChannelR) :
    ((if d.id = rid then { d with channel_id := e, title := t } else d) : ChannelR).channel_username
      = d.channel_username ∧
    ((if d.id = rid then { d with channel_id := e, title := t } else d) : ChannelR).id = d.id := by
  by_cases h : d.id = rid <;> simp [h]

/-- Helper: username lookup commutes with the refresh map. -/
theorem find?_username_map_upd (l : List ChannelR) (rid : Nat) (e : Int) (t : String)
    (k : String) :
    ((l.map fun d => if d.id = rid then { d with channel_id := e, title := t } else d).find?
        fun c => decide (c.channel_username = k))
      = (l.find? fun c => decide (c.channel_username = k)).map
          (fun d => if d.id = rid then { d with channel_id := e, title := t } else d) := by
  induction l with
  | nil => rfl
  | cons a rest ih =>
    by_cases hid : a.id = rid <;>
      by_cases h : a.channel_username = k <;>
      simp [List.find?_cons, hid, h, ih]

/-- Helper: postconditions of the channel upsert. -/
theorem add_channel_spec (db : DB) (u : String) (e : Int) (t : String) :
    (∃ c, ((add_channel db u e t).2.channels.find?
        fun c => decide (c.channel_username = pyLower u)) = some c
        ∧ c.id = (add_channel db u e t).1) ∧
    (add_channel db u e t).2.user_channels = db.user_channels ∧
    (∀ c ∈ (add_channel db u e t).2.channels,
      (∃ d ∈ db.channels, c.channel_username = d.channel_username)
        ∨ c.channel_username = pyLower u) ∧
    (∀ c0, (db.channels.find? fun c => decide (c.channel_username = pyLower u)) = some c0 →
      (add_channel db u e t).1 = c0.id) := by
  unfold add_channel
  cases hf : db.channels.find? (fun c => decide (c.channel_username = pyLower u)) with
  | some row =>
    dsimp only
    refine ⟨?_, rfl, ?_, ?_⟩
    · rw [find?_username_map_upd, hf]
      exact ⟨_, rfl, (updChan_preserves row.id e t row).2⟩
    · intro c hc
      obtain ⟨d, hd, he⟩ := List.mem_map.mp hc
      left
      exact ⟨d, hd, by rw [← he]; exact (updChan_preserves row.id e t d).1⟩
    · intro c0 hc0
      rw [Option.some.inj hc0]
  | none =>
    dsimp only
    refine ⟨?_, rfl, ?_, ?_⟩
    · rw [List.find?_append, hf, Option.none_or]
      exact ⟨⟨db.next_channel_id, pyLower u, e, t⟩, by simp [List.find?_cons], rfl⟩
    · intro c hc
      rcases List.mem_append.mp hc with h | h
      · left
        exact ⟨c, h, rfl⟩
      · right
        rw [List.mem_singleton.mp h]
    · intro c0 hc0
      exact Option.noConfusion hc0

/-- Helper: postconditions of the subscription insert. -/
theorem add_user_channel_spec (db : DB) (uid cid : Nat) :
    ((uid, cid) ∈ db.user_channels → add_user_channel db uid cid = (false, db)) ∧
    (¬ (uid, cid) ∈ db.user_channels →
      add_user_channel db uid cid
        = (true, { db with user_channels := db.user_channels ++ [(uid, cid)] })) := by
  unfold add_user_channel
  constructor <;> intro h <;> simp [h]

/-- Helper: a successful username lookup implies the handle had no leading
`'@'` (stored usernames never do), so stripping is the identity on it. -/
theorem earlyHit_key {db : DB} {handle : String} {c : ChannelR}
    (hnoat : ∀ c ∈ db.channels, ¬ c.channel_username.data.head? = some '@')
    (hfind : get_channel_by_username db handle = some c) :
    lstripAt handle = handle := by
  unfold get_channel_by_username at hfind
  have hc := List.find?_some hfind
  have hmem := List.mem_of_find?_eq_some hfind
  have he : c.channel_username = pyLower handle := of_decide_eq_true hc
  apply lstripAt_self
  intro hcon
  have hlow : (pyLower handle).data.head? = some '@' := (pyLower_head_at handle).mpr hcon
  rw [← he] at hlow
  exact hnoat c hmem hlow

/-- Helper: full postconditions of the resolve-and-insert tail when the
transport resolves the stripped handle.  Afterwards the store holds a
channel under the stripped lowercased handle with the caller subscribed
exactly once-or-more; and when that was already so beforehand the call
reports the already-added outcome and leaves the subscriptions
untouched. -/
theorem addChannelResolvePath_spec (transport : String → Option (Int × String))
    (db : DB) (w : List Int) (uid : Nat) (handle : String) (et : Int × String)
    (hres : transport (lstripAt handle) = some et)
    (hnodup : db.user_channels.Nodup)
    (hnoat : ∀ c ∈ db.channels, ¬ c.channel_username.data.head? = some '@') :
    (∃ c, ((addChannelResolvePath transport ⟨db, w⟩ uid handle).st.db.channels.find?
        fun c => decide (c.channel_username = pyLower (lstripAt handle))) = some c
        ∧ (uid, c.id) ∈ (addChannelResolvePath transport ⟨db, w⟩ uid handle).st.db.user_channels) ∧
    (addChannelResolvePath transport ⟨db, w⟩ uid handle).st.db.user_channels.Nodup ∧
    (∀ c ∈ (addChannelResolvePath transport ⟨db, w⟩ uid handle).st.db.channels,
      ¬ c.channel_username.data.head? = some '@') ∧
    (∀ c0, (db.channels.find?
        fun c => decide (c.channel_username = pyLower (lstripAt handle))) = some c0 →
      (uid, c0.id) ∈ db.user_channels →
      (addChannelResolvePath transport ⟨db, w⟩ uid handle).success = false ∧
      (addChannelResolvePath transport ⟨db, w⟩ uid handle).message = "channel_already_added" ∧
      (addChannelResolvePath transport ⟨db, w⟩ uid handle).st.db.user_channels
        = db.user_channels) := by
  have hres' : resolve_channel transport handle = some (lstripAt handle, et) := by
    unfold resolve_channel
    simp only [hres, Option.map_some']
  obtain ⟨⟨c1, hc1find, hc1id⟩, hpairs, husers, hupd⟩ :=
    add_channel_spec db (lstripAt handle) et.1 et.2
  have hnoat' : ∀ c ∈ (add_channel db (lstripAt handle) et.1 et.2).2.channels,
      ¬ c.channel_username.data.head? = some '@' := by
    intro c hc
    rcases husers c hc with ⟨d, hd, he⟩ | he
    · rw [he]
      exact hnoat d hd
    · rw [he]
      intro hcon
      exact lstripAt_head handle ((pyLower_head_at (lstripAt handle)).mp hcon)
  by_cases hmem : (uid, (add_channel db (lstripAt handle) et.1 et.2).1)
      ∈ (add_channel db (lstripAt handle) et.1 et.2).2.user_channels
  · have hr : addChannelResolvePath transport ⟨db, w⟩ uid handle
        = ⟨false, "channel_already_added", true,
           ⟨(add_channel db (lstripAt handle) et.1 et.2).2, w⟩⟩ := by
      unfold addChannelResolvePath
      rw [hres']
      dsimp only
      rw [(add_user_channel_spec _ _ _).1 hmem]
      rfl
    rw [hr]
    refine ⟨⟨c1, hc1find, by rw [hc1id]; exact hmem⟩, by rw [hpairs]; exact hnodup,
      hnoat', ?_⟩
    intro c0 _ _
    exact ⟨rfl, rfl, hpairs⟩
  · have hr : addChannelResolvePath transport ⟨db, w⟩ uid handle
        = ⟨true, et.2, true,
           ⟨{ (add_channel db (lstripAt handle) et.1 et.2).2 with
              user_channels := (add_channel db (lstripAt handle) et.1 et.2).2.user_channels
                ++ [(uid, (add_channel db (lstripAt handle) et.1 et.2).1)] },
            watchAdd w et.1⟩⟩ := by
      unfold addChannelResolvePath
      rw [hres']
      dsimp only
      rw [(add_user_channel_spec _ _ _).2 hmem]
      rfl
    rw [hr]
    refine ⟨⟨c1, hc1find, ?_⟩, ?_, hnoat', ?_⟩
    · rw [hc1id]
      exact List.mem_append_right _ (List.mem_singleton_self _)
    · rw [List.nodup_append]
      refine ⟨by rw [hpairs]; exact hnodup, List.nodup_singleton _, ?_⟩
      intro x hx hx'
      rw [List.mem_singleton.mp hx'] at hx
      exact hmem hx
    · intro c0 hc0 hp0
      exfalso
      apply hmem
      rw [hupd c0 hc0, hpairs]
      exact hp0

/-- Helper: after any successful-resolution subscribe call, the store
holds a channel row under the stripped lowercased handle with the caller
among its subscribers, and the store invariants persist. -/
theorem add_channel_for_user_establishes (transport : String → Option (Int × String))
    (st : WState) (uid : Nat) (handle : String) (et : Int × String)
    (hres : transport (lstripAt handle) = some et)
    (hnodup : st.db.user_channels.Nodup)
    (hnoat : ∀ c ∈ st.db.channels, ¬ c.channel_username.data.head? = some '@') :
    (∃ c, ((add_channel_for_user transport st uid handle).st.db.channels.find?
        fun c => decide (c.channel_username = pyLower (lstripAt handle))) = some c
        ∧ (uid, c.id) ∈ (add_channel_for_user transport st uid handle).st.db.user_channels) ∧
    (add_channel_for_user transport st uid handle).st.db.user_channels.Nodup ∧
    (∀ c ∈ (add_channel_for_user transport st uid handle).st.db.channels,
      ¬ c.channel_username.data.head? = some '@') := by
  have hpres := get_or_create_user_preserves st.db uid
  have hchan : get_channel_by_username (get_or_create_user st.db uid).2 handle
      = get_channel_by_username st.db handle := by
    unfold get_channel_by_username
    rw [hpres.1]
  have hnodup0 : (get_or_create_user st.db uid).2.user_channels.Nodup := by
    rw [hpres.2.1]
    exact hnodup
  have hnoat0 : ∀ c ∈ (get_or_create_user st.db uid).2.channels,
      ¬ c.channel_username.data.head? = some '@' := by
    rw [hpres.1]
    exact hnoat
  unfold add_channel_for_user
  simp only [hchan]
  cases hex : get_channel_by_username st.db handle with
  | none =>
    dsimp only
    have h := addChannelResolvePath_spec transport (get_or_create_user st.db uid).2
      st.watching uid handle et hres hnodup0 hnoat0
    exact ⟨h.1, h.2.1, h.2.2.1⟩
  | some c0 =>
    dsimp only
    by_cases hhas : user_has_channel (get_or_create_user st.db uid).2 uid c0.id = true
    · rw [if_pos hhas]
      have hkey : lstripAt handle = handle := earlyHit_key hnoat hex
      have hhas' : (uid, c0.id) ∈ (get_or_create_user st.db uid).2.user_channels := by
        have h2 : decide ((uid, c0.id) ∈ (get_or_create_user st.db uid).2.user_channels)
            = true := hhas
        exact of_decide_eq_true h2
      refine ⟨⟨c0, ?_, hhas'⟩, hnodup0, hnoat0⟩
      rw [hkey]
      exact hchan.trans hex
    · rw [if_neg hhas]
      have h := addChannelResolvePath_spec transport (get_or_create_user st.db uid).2
        st.watching uid handle et hres hnodup0 hnoat0
      exact ⟨h.1, h.2.1, h.2.2.1⟩

/-- Helper: a subscribe call on a state already holding the stripped
handle's channel with the caller subscribed reports the already-added
outcome (whichever check catches it). -/
theorem add_channel_for_user_already (transport : String → Option (Int × String))
    (st : WState) (uid : Nat) (handle : String) (et : Int × String)
    (hres : transport (lstripAt handle) = some et)
    (hnodup : st.db.user_channels.Nodup)
    (hnoat : ∀ c ∈ st.db.channels, ¬ c.channel_username.data.head? = some '@')
    (hc : ChannelR)
    (hfind : (st.db.channels.find?
      fun c => decide (c.channel_username = pyLower (lstripAt handle))) = some hc)
    (hmem : (uid, hc.id) ∈ st.db.user_channels) :
    (add_channel_for_user transport st uid handle).success = false ∧
    (add_channel_for_user transport st uid handle).message = "channel_already_added" := by
  have hpres := get_or_create_user_preserves st.db uid
  have hchan : get_channel_by_username (get_or_create_user st.db uid).2 handle
      = get_channel_by_username st.db handle := by
    unfold get_channel_by_username
    rw [hpres.1]
  have hnodup0 : (get_or_create_user st.db uid).2.user_channels.Nodup := by
    rw [hpres.2.1]
    exact hnodup
  have hnoat0 : ∀ c ∈ (get_or_create_user st.db uid).2.channels,
      ¬ c.channel_username.data.head? = some '@' := by
    rw [hpres.1]
    exact hnoat
  have hfind0 : ((get_or_create_user st.db uid).2.channels.find?
      fun c => decide (c.channel_username = pyLower (lstripAt handle))) = some hc := by
    rw [hpres.1]
    exact hfind
  have hmem0 : (uid, hc.id) ∈ (get_or_create_user st.db uid).2.user_channels := by
    rw [hpres.2.1]
    exact hmem
  unfold add_channel_for_user
  simp only [hchan]
  cases hex : get_channel_by_username st.db handle with
  | none =>
    dsimp only
    have h := (addChannelResolvePath_spec transport (get_or_create_user st.db uid).2
      st.watching uid handle et hres hnodup0 hnoat0).2.2.2 hc hfind0 hmem0
    exact ⟨h.1, h.2.1⟩
  | some c0 =>
    dsimp only
    by_cases hhas : user_has_channel (get_or_create_user st.db uid).2 uid c0.id = true
    · rw [if_pos hhas]
      exact ⟨rfl, rfl⟩
    · rw [if_neg hhas]
      have h := (addChannelResolvePath_spec transport (get_or_create_user st.db uid).2
        st.watching uid handle et hres hnodup0 hnoat0).2.2.2 hc hfind0 hmem0
      exact ⟨h.1, h.2.1⟩

/-- Helper: in a duplicate-free list a member is counted exactly once. -/
theorem countP_eq_one_of_mem_nodup {α : Type} [DecidableEq α] {l : List α} {a : α}
    (hnd : l.Nodup) (h : a ∈ l) : l.countP (fun x => decide (x = a)) = 1 := by
  induction l with
  | nil => cases h
  | cons b rest ih =>
    rw [List.nodup_cons] at hnd
    rcases List.mem_cons.mp h with he | hm
    · have hb : decide (b = a) = true := decide_eq_true he.symm
      have hz : rest.countP (fun x => decide (x = a)) = 0 := by
        rw [List.countP_eq_zero]
        intro x hx hxa
        apply hnd.1
        rw [← he, ← of_decide_eq_true hxa]
        exact hx
      rw [List.countP_cons, hb, hz]
      rfl
    · have hb : ¬ b = a := fun e => hnd.1 (e ▸ hm)
      rw [List.countP_cons, decide_eq_false hb]
      simp [ih hnd.2 hm]

/-- C5: subscribe is idempotent.  For a handle that resolves successfully
(on a store with duplicate-free subscription rows and `'@'`-free stored
usernames), a second identical subscribe call reports the AlreadyAdded
outcome rather than an error, and exactly one subscription row links the
user to the handle's channel. -/
theorem subscribe_idempotent (transport : String → Option (Int × String))
    (st : WState) (uid : Nat) (handle : String) (et : Int × String)
    (hres : transport (lstripAt handle) = some et)
    (hnodup : st.db.user_channels.Nodup)
    (hnoat : ∀ c ∈ st.db.channels, ¬ c.channel_username.data.head? = some '@') :
    (add_channel_for_user transport
        (add_channel_for_user transport st uid handle).st uid handle).success = false ∧
    (add_channel_for_user transport
        (add_channel_for_user transport st uid handle).st uid handle).message
      = "channel_already_added" ∧
    ∃ c, get_channel_by_username
        (add_channel_for_user transport
          (add_channel_for_user transport st uid handle).st uid handle).st.db
        (lstripAt handle) = some c ∧
      (add_channel_for_user transport
        (add_channel_for_user transport st uid handle).st uid
        handle).st.db.user_channels.countP (fun pr => decide (pr = (uid, c.id))) = 1 := by
  obtain ⟨⟨c1, hf1, hm1⟩, hnd1, hna1⟩ :=
    add_channel_for_user_establishes transport st uid handle et hres hnodup hnoat
  obtain ⟨⟨c2, hf2, hm2⟩, hnd2, _⟩ :=
    add_channel_for_user_establishes transport
      (add_channel_for_user transport st uid handle).st uid handle et hres hnd1 hna1
  have halready := add_channel_for_user_already transport
    (add_channel_for_user transport st uid handle).st uid handle et hres hnd1 hna1
    c1 hf1 hm1
  refine ⟨halready.1, halready.2, c2, ?_, countP_eq_one_of_mem_nodup hnd2 hm2⟩
  unfold get_channel_by_username
  exact hf2

/-- Witness for C5 on an initially empty store with an `'@'`-prefixed
mixed-case handle. -/
theorem subscribe_idempotent_witness :
    (add_channel_for_user
        (fun u => if u = "Foo" then some (100, "Foo Channel") else none)
        (add_channel_for_user
          (fun u => if u = "Foo" then some (100, "Foo Channel") else none)
          ⟨⟨[], [], [], [], 1, 1⟩, []⟩ 7 "@Foo").st 7 "@Foo").success = false ∧
    (add_channel_for_user
        (fun u => if u = "Foo" then some (100, "Foo Channel") else none)
        (add_channel_for_user
          (fun u => if u = "Foo" then some (100, "Foo Channel") else none)
          ⟨⟨[], [], [], [], 1, 1⟩, []⟩ 7 "@Foo").st 7 "@Foo").message
      = "channel_already_added" ∧
    ∃ c, get_channel_by_username
        (add_channel_for_user
          (fun u => if u = "Foo" then some (100, "Foo Channel") else none)
          (add_channel_for_user
            (fun u => if u = "Foo" then some (100, "Foo Channel") else none)
            ⟨⟨[], [], [], [], 1, 1⟩, []⟩ 7 "@Foo").st 7 "@Foo").st.db
        (lstripAt "@Foo") = some c ∧
      (add_channel_for_user
        (fun u => if u = "Foo" then some (100, "Foo Channel") else none)
        (add_channel_for_user
          (fun u => if u = "Foo" then some (100, "Foo Channel") else none)
          ⟨⟨[], [], [], [], 1, 1⟩, []⟩ 7 "@Foo").st 7
        "@Foo").st.db.user_channels.countP (fun pr => decide (pr = (7, c.id))) = 1 :=
  subscribe_idempotent
    (fun u => if u = "Foo" then some (100, "Foo Channel") else none)
    ⟨⟨[], [], [], [], 1, 1⟩, []⟩ 7 "@Foo" (100, "Foo Channel")
    (by decide) (by decide) (by decide)

end Jamla
